import Mathlib

/-!
Verification development for the `xmlplot/plot.py` module: a shallow
embedding of its variable/slice transform pipeline (slice-at-coordinate,
weighted average, flatten, merged stores), the custom variable store, the
figure update/suspend state machine and the time-tick selection, together
with theorems settling the specification claims about them.

Numeric data is modelled with `ℚ` (the Python code uses floats; every
claim under study is about exact arithmetic identities, index arithmetic
or control flow, so rationals are a faithful carrier).  Fallible Python
code (raised exceptions) is modelled with `Except PyErr`.
-/

set_option autoImplicit false

deriving instance DecidableEq for Except

namespace XmlPlot

/-- Python exception kinds raised by the code paths under study. -/
inductive PyErr where
  | nameError
  | attributeError
  | assertionError
  | valueError
  | zeroDivisionError
  deriving DecidableEq, Repr

/-- Successive differences, `numpy.diff` for a 1-D array. -/
def diffList : List ℚ → List ℚ
  | x :: y :: rest => (y - x) :: diffList (y :: rest)
  | _ => []

/-- Running sums starting from `acc`; `cumsum` of a 1-D array is `cumsumFrom 0`. -/
def cumsumFrom (acc : ℚ) : List ℚ → List ℚ
  | [] => []
  | x :: xs => (acc + x) :: cumsumFrom (acc + x) xs

/-- Elementwise product followed by sum: `(a*b).sum()` for 1-D arrays. -/
def dotQ (a b : List ℚ) : ℚ := ((a.zip b).map fun p => p.1 * p.2).sum

/-- Insert a (data, weight) pair into a list sorted ascending by the data
component, after all earlier pairs with data `≤` the new one (stable). -/
def insertByData (p : ℚ × ℚ) : List (ℚ × ℚ) → List (ℚ × ℚ)
  | [] => [p]
  | q :: qs => if q.1 ≤ p.1 then q :: insertByData p qs else p :: q :: qs

/-- Stable sort of (data, weight) pairs ascending by the data component.
Models `argsort` on the data followed by `argtake` of data and weights:
the data ends up sorted and the weights are permuted identically. -/
def sortByData : List (ℚ × ℚ) → List (ℚ × ℚ)
  | [] => []
  | p :: ps => insertByData p (sortByData ps)

/-- `numpy.searchsorted` with the default left side, on a sorted 1-D
array: the index of the first element `≥ v`, i.e. the number of elements
strictly below `v`. -/
def searchsortedLeft (xs : List ℚ) (v : ℚ) : ℕ := xs.countP fun c => c < v

/-- Python list slicing `xs[a:b]` for integer (possibly negative) indices:
negative indices count from the end, and the bounds are clamped to the
list. -/
def pySlice {α : Type} (xs : List α) (a b : ℤ) : List α :=
  let n : ℤ := xs.length
  let norm : ℤ → ℤ := fun i => if i < 0 then max 0 (n + i) else min i n
  (xs.take (norm b).toNat).drop (norm a).toNat

/-- A 1-D data slice (`Variable.Slice` with one dimension): optional data,
centre coordinates and staggered (interface) coordinates.  A `none` field
models a Python `None` (the slice is then invalid). -/
structure Slice1 where
  data : Option (List ℚ)
  coords : Option (List ℚ)
  coords_stag : Option (List ℚ)
  deriving DecidableEq, Repr, Inhabited

/-- `Slice.isValid` for a 1-D slice: `ndim > 0` holds by construction and
the data and both coordinate arrays must be present. -/
def Slice1.isValid (s : Slice1) : Bool :=
  s.data.isSome && s.coords.isSome && s.coords_stag.isSome

/-- A 0-dimensional result slice, as produced by a reduce transform
applied to a 1-D variable.  With `ndim = 0`, `isValid` is always false,
so such a slice is reported invalid even when `data` is set. -/
structure Slice0 where
  data : Option ℚ
  deriving DecidableEq, Repr

/-- `VariableSlice.getSlice` (plot.py lines 457-491) for a 1-D source
variable, the source slice being the one the source variable returns for
the inserted `(sliceval, sliceval)` bounds.  Translated statement by
statement:

* `newslice = self.Slice(self.getDimensions())` is the invalid 0-D slice;
* `if not sourceslice.isValid: return newslice` refers to the **bound
  method** `isValid` without calling it; a bound method is always truthy,
  so this branch is never taken (invalid sources fall through);
* the `assert ....ndim==1` holds by construction here, but accessing
  `.ndim` on a `None` coordinate array raises `AttributeError`;
* `ipos = coords.searchsorted(self.sliceval)`; if `ipos == 0` or
  `ipos >= len(coords)` the (invalid) `newslice` is returned;
* `relstep = stepx/deltax` raises `ZeroDivisionError` when the two
  straddling coordinates coincide;
* the following `if len(dims)==1:` references the names `dims` (and then
  `data`) which are defined nowhere in the function or module, so the
  interior-point path always raises `NameError`; `newslice.data` is never
  assigned on any path. -/
def VariableSlice.getSlice (src : Slice1) (sliceval : ℚ) : Except PyErr Slice0 :=
  match src.coords with
  | none => .error .attributeError
  | some cs =>
    let ipos := searchsortedLeft cs sliceval
    if ipos = 0 ∨ cs.length ≤ ipos then .ok ⟨none⟩
    else
      let leftx := cs.getD (ipos - 1) 0
      let rightx := cs.getD ipos 0
      if rightx - leftx = 0 then .error .zeroDivisionError
      else .error .nameError

/-- The data carried by a `VariableSlice.getSlice` outcome (`none` both
for an exception and for a slice whose data was never assigned). -/
def sliceResultData : Except PyErr Slice0 → Option ℚ
  | .ok r => r.data
  | .error _ => none

/-- The store of end-to-end scenario 2: variable with values
`[10, 12, 14]` over times `[0, 1, 2]` (staggered coordinates by the
mid-point rule). -/
def timeDemoSlice : Slice1 :=
  ⟨some [10, 12, 14], some [0, 1, 2], some [-1/2, 1/2, 3/2, 5/2]⟩

/-- One data series of a figure update, reduced to what the update loop
inspects: whether its `source/variable` path (secondary id) is set,
whether the fetched slice reports itself valid, and the slice
dimensionality after the singleton squeeze. -/
structure SeriesCfg where
  hasPath : Bool
  sliceValid : Bool
  ndim : ℕ
  deriving DecidableEq, Repr

/-- The per-series loop of `Figure.update` (plot.py lines 915-1220),
reduced to the plot counters: a series with an unset path is skipped, a
series whose slice is invalid is skipped, and otherwise the 1-D or 2-D
plot counter is incremented (0-D slices fall through without plotting). -/
def seriesLoop : List SeriesCfg → ℕ × ℕ
  | [] => (0, 0)
  | s :: rest =>
    let r := seriesLoop rest
    if s.hasPath && s.sliceValid then
      if s.ndim = 1 then (r.1 + 1, r.2)
      else if s.ndim = 2 then (r.1, r.2 + 1)
      else r
    else r

/-- Outcome of `Figure.update` relevant to the completion callback: the
plot counters, and the argument passed to every `completeStateChange`
callback, which the code computes as `len(forcedseries) > 0`
(plot.py line 1503). -/
def figureUpdateRun (series : List SeriesCfg) : (ℕ × ℕ) × Bool :=
  (seriesLoop series, decide (0 < series.length))

/-- Total number of series actually plotted in an update. -/
def plottedTotal (series : List SeriesCfg) : ℕ :=
  (seriesLoop series).1 + (seriesLoop series).2

/-- A configured series whose fetched slice is invalid: it is skipped by
the update loop. -/
def invalidSeries : SeriesCfg := ⟨true, false, 1⟩

/-- A variable as stored in a `CustomVariableStore`: its identifying
short name and its long name. -/
structure CVar where
  name : String
  longName : String
  deriving DecidableEq, Repr

/-- `CustomVariableStore.addVariable`: `self.vars.append(var)`. -/
def CustomVariableStore.addVariable (vars : List CVar) (v : CVar) : List CVar :=
  vars ++ [v]

/-- `CustomVariableStore.getVariable`: linear scan returning the first
variable whose short name matches, else `None`. -/
def CustomVariableStore.getVariable (vars : List CVar) (n : String) : Option CVar :=
  vars.find? fun v => v.name == n

/-- `CustomVariableStore.getVariableNames`: the short names in insertion
order. -/
def CustomVariableStore.getVariableNames (vars : List CVar) : List String :=
  vars.map CVar.name

/-- A dynamically typed Python value, enough to distinguish the list and
dict shapes returned by the `getVariableLongNames` implementations. -/
inductive PyVal where
  | str : String → PyVal
  | list : List PyVal → PyVal
  | dict : List (String × PyVal) → PyVal
  deriving Repr

/-- Whether a Python value is a dictionary. -/
def PyVal.isDict : PyVal → Bool
  | .dict _ => true
  | _ => false

/-- The base implementation `VariableStore.getVariableLongNames`
(plot.py lines 38-43): a dict keyed by short name whose values are the
long names obtained through `getVariable`. -/
def VariableStore.getVariableLongNamesBase
    (names : List String) (lookupLong : String → String) : PyVal :=
  PyVal.dict (names.map fun n => (n, PyVal.str (lookupLong n)))

/-- The override `CustomVariableStore.getVariableLongNames`
(plot.py lines 353-354): `[v.getLongName() for v in self.vars]` — a
plain list of long names, not a dict. -/
def CustomVariableStore.getVariableLongNames (vars : List CVar) : PyVal :=
  PyVal.list (vars.map fun v => PyVal.str v.longName)

/-- A one-variable custom store used to evaluate the long-name methods. -/
def tempStore : List CVar := [⟨"temp", "Temperature"⟩]

/-- The figure state observable through `setUpdating`/`update`
(plot.py lines 713-714, 734-741, 830-841, 1505): the `updating` and
`dirty` flags, plus two abstract observers of the rebuild work performed
by the body of `update` — a counter of completed full rebuilds and a
revision counter for the figure/property trees, both bumped exactly once
per completed rebuild. -/
structure FigState where
  updating : Bool
  dirty : Bool
  rebuilds : ℕ
  treeRev : ℕ
  deriving DecidableEq, Repr

/-- `Figure.update`: `if not self.updating: self.dirty = True; return`,
otherwise the full rebuild runs to completion and ends with
`self.dirty = False` (line 1505). -/
def Figure.update (s : FigState) : FigState :=
  if !s.updating then { s with dirty := true }
  else ⟨s.updating, false, s.rebuilds + 1, s.treeRev + 1⟩

/-- `Figure.setUpdating` (lines 734-741): stores the new flag when it
changed, and flushes with a single `update()` when updates are re-enabled
while the dirty flag is set. -/
def Figure.setUpdating (allow : Bool) (s : FigState) : FigState :=
  if s.updating != allow then
    let s2 := { s with updating := allow }
    if allow && s2.dirty then Figure.update s2 else s2
  else s

/-- A suspended, dirty figure state used to instantiate the update
coalescing theorem. -/
def suspendedDirtyFig : FigState := ⟨false, true, 0, 0⟩

/-- A valid 2-D source slice with dimension-independent (1-D) coordinate
vectors on both dimensions, as `VariableFlat.getSlice` requires.  `data`
is indexed row-major in dimension order `(dim 0, dim 1)`. -/
structure Slice2 where
  data : List (List ℚ)
  coords0 : List ℚ
  coords1 : List ℚ
  stag0 : List ℚ
  stag1 : List ℚ
  deriving DecidableEq, Repr

/-- `sourcecount` of `VariableFlat.getSlice` (plot.py line 618): the
length of the coordinate vector of the dimension being eliminated. -/
def flatSourceCount (src : Slice2) (idim : ℕ) : ℕ :=
  if idim = 0 then src.coords0.length else src.coords1.length

/-- `targetcount` (line 619): the length of the coordinate vector of the
absorbing (target) dimension, the other of the two dimensions. -/
def flatTargetCount (src : Slice2) (idim : ℕ) : ℕ :=
  if idim = 0 then src.coords1.length else src.coords0.length

/-- The centre coordinates of the absorbing (target) dimension. -/
def flatTargetCoords (src : Slice2) (idim : ℕ) : List ℚ :=
  if idim = 0 then src.coords1 else src.coords0

/-- The source value at position `i` along the target dimension and `j`
along the eliminated dimension (`sourceslice.data[sourceindices]` with
`sourceindices[itargetdim] = i`, `sourceindices[idimension] = j`). -/
def srcValueAt (src : Slice2) (idim i j : ℕ) : ℚ :=
  if idim = 1 then (src.data.getD i []).getD j 0 else (src.data.getD j []).getD i 0

/-- The nested fill loops of `VariableFlat.getSlice` (lines 630-638):
for each `i` along the target dimension (here starting from `i` with `k`
iterations left), write the block of `m = sourcecount` entries
`f i 0, ..., f i (m-1)` at positions `i*m ... (i+1)*m - 1`. -/
def buildFlatFrom (m : ℕ) (f : ℕ → ℕ → ℚ) (i : ℕ) : ℕ → List ℚ
  | 0 => []
  | k + 1 => (List.range m).map (f i) ++ buildFlatFrom m f (i + 1) k

/-- The slice produced by `VariableFlat.getSlice` for a 2-D source: the
(now 1-D) data, the rebuilt target coordinates (`newtargetcoords`), and
the staggered target coordinates, which the code leaves at the source's
values. -/
structure FlatOut where
  data : List ℚ
  coordsT : List ℚ
  stagT : List ℚ
  deriving DecidableEq, Repr

/-- `VariableFlat.getSlice` (plot.py lines 606-644) for a valid 2-D
source slice, `idim` being the index of the dimension to eliminate and
the other dimension absorbing it.  The output position
`i*sourcecount + j` receives the source value at (target = `i`,
eliminated = `j`), and the same positions of the new target coordinate
vector all receive the target's original coordinate at `i`. -/
def VariableFlat.getSlice (src : Slice2) (idim : ℕ) : FlatOut :=
  let sc := flatSourceCount src idim
  let tc := flatTargetCount src idim
  ⟨buildFlatFrom sc (fun i j => srcValueAt src idim i j) 0 tc,
   buildFlatFrom sc (fun i _ => (flatTargetCoords src idim).getD i 0) 0 tc,
   if idim = 0 then src.stag1 else src.stag0⟩

/-- Split a flat list into `k` consecutive chunks of `m` elements:
reshaping the flattened axis back into (target, eliminated) form. -/
def chunkExact (m : ℕ) : ℕ → List ℚ → List (List ℚ)
  | 0, _ => []
  | k + 1, xs => xs.take m :: chunkExact m k (xs.drop m)

/-- A concrete 2×3 source slice for the flatten transform. -/
def flatDemoSlice : Slice2 :=
  ⟨[[1, 2, 3], [4, 5, 6]], [10, 20], [7, 8, 9], [5, 15, 25], [6, 7, 8, 9]⟩

/-- `ifirst` of `MergedVariable.getSlice` (plot.py lines 291-292):
starts at `0` and becomes `floor(lb)` when a lower bound above `0` is
given.  Equivalently `max 0 ⌊lb⌋` — the lower bound is clamped from
below only. -/
def mergedIFirst (lb : Option ℚ) : ℤ :=
  match lb with
  | none => 0
  | some x => if 0 < x then ⌊x⌋ else 0

/-- `ilast` (lines 291, 293): starts at `N-1` and becomes `ceil(ub)`
when an upper bound below `N-1` is given.  Equivalently
`min (N-1) ⌈ub⌉` — the upper bound is clamped from above only. -/
def mergedILast (n : ℕ) (ub : Option ℚ) : ℤ :=
  match ub with
  | none => (n : ℤ) - 1
  | some x => if x < (n : ℚ) - 1 then ⌈x⌉ else (n : ℤ) - 1

/-- The row-collection loop of `MergedVariable.getSlice` (lines
297-305): each selected store's slice must carry data (`.shape` on
`None` raises) whose shape matches the array preallocated from the first
included slice's shape (length `len0` here), and the rows are stacked in
store order. -/
def gatherRows (len0 : ℕ) : List Slice1 → Except PyErr (List (List ℚ))
  | [] => .ok []
  | s :: rest =>
    match s.data with
    | none => .error .attributeError
    | some d =>
      if d.length = len0 then (gatherRows len0 rest).map (fun rows => d :: rows)
      else .error .valueError

/-- The slice produced by `MergedVariable.getSlice`: integer coordinates
for the merged leading dimension, the stacked data (`none` when no store
fell inside the selected range, so `slice.data` was never assigned and
the slice is invalid), and the inner coordinates taken from the first
included store's slice. -/
structure MergedOut where
  coords0 : List ℚ
  data : Option (List (List ℚ))
  innerCoords : Option (List ℚ)
  deriving DecidableEq, Repr

/-- `MergedVariableStore.MergedVariable.getSlice` (plot.py lines
286-306) over `N = inners.length` stores, each store's variable
returning the given (1-D) inner slice for the passed-through inner
bounds.  `lb`/`ub` are the bounds on the merged leading dimension.
`coords[0] = linspace(ifirst, ilast, ilast-ifirst+1)` is the integer
vector `ifirst..ilast` (empty when the count is nonpositive, as for
old-numpy `linspace`); the store range is `vars[ifirst:ilast+1]` with
Python slicing semantics (a negative `ilast+1` wraps around); the
staggered merged coordinates (via the external `common.getCenters`) are
not modelled, not being part of any claim. -/
def MergedVariable.getSlice (inners : List Slice1) (lb ub : Option ℚ) :
    Except PyErr MergedOut :=
  let lo := mergedIFirst lb
  let hi := mergedILast inners.length ub
  let coords0 : List ℚ :=
    if hi < lo then []
    else (List.range (hi + 1 - lo).toNat).map fun k => ((lo : ℚ) + (k : ℚ))
  match pySlice inners lo (hi + 1) with
  | [] => .ok ⟨coords0, none, none⟩
  | s0 :: rest =>
    match s0.data with
    | none => .error .attributeError
    | some d0 =>
      match gatherRows d0.length (s0 :: rest) with
      | .error e => .error e
      | .ok rows => .ok ⟨coords0, some rows, s0.coords⟩

/-- The index range the claim describes: `floor`/`ceil` rounded bounds,
both clamped into `[0, N-1]`. -/
def claimedMergedRange (n : ℕ) (lb ub : Option ℚ) : ℤ × ℤ :=
  (max 0 (min ((n : ℤ) - 1) (match lb with | none => 0 | some x => ⌊x⌋)),
   max 0 (min ((n : ℤ) - 1) (match ub with | none => (n : ℤ) - 1 | some x => ⌈x⌉)))

/-- Two single-store slices for the merged-store theorems. -/
def mergedDemoInners : List Slice1 :=
  [⟨some [10, 12], some [5, 6], none⟩, ⟨some [20, 22], some [5, 6], none⟩]

/-- The normalized cell-width weights of `VariableAverage.getSlice`
(plot.py lines 526-539, 1-D case): `numpy.diff` of the staggered
coordinates, divided by their sum so they add up to one along the
reduced dimension.  (A zero weight sum makes numpy emit infinities; in
`ℚ` division by zero gives `0` — the theorems assume a nonzero-width
domain.) -/
def normWeights (stag : List ℚ) : List ℚ :=
  let w0 := diffList stag
  w0.map fun w => w / w0.sum

/-- The weighted mean (`(sourceslice.data*weights).sum`, line 544). -/
def wMean (d stag : List ℚ) : ℚ := dotQ d (normWeights stag)

/-- The weighted variance `E[x²] - E[x]²` (line 575) with the same
weights. -/
def wVar (d stag : List ℚ) : ℚ :=
  dotQ (d.map fun x => x * x) (normWeights stag) - wMean d stag * wMean d stag

/-- The interface grid for the cumulative distribution (line 561):
element-wise average of the sorted data prefixed with its first element
and the sorted data suffixed with its last element, so entry `0` is the
first value, entry `n` the last, and the interior entries are midpoints
of neighbours. -/
def midGrid : List ℚ → List ℚ
  | [] => []
  | x :: xs =>
    List.zipWith (fun a b => (a + b) / 2) (x :: x :: xs) ((x :: xs) ++ [(x :: xs).getLastD x])

/-- Modelled from the spec: the linear interpolation inside
`common.getPercentile` (the `common` module is not part of this
repository's sources) — walk the cumulative-weight grid, paired with the
interface data values, to the first segment whose upper cumulative
weight reaches the target fraction, and interpolate the data value
linearly inside it. -/
def interpCdf : List (ℚ × ℚ) → ℚ → ℚ
  | (w1, x1) :: (w2, x2) :: rest, t =>
    if t ≤ w2 then x1 + (t - w1) / (w2 - w1) * (x2 - x1)
    else interpCdf ((w2, x2) :: rest) t
  | [(_, x)], _ => x
  | [], _ => 0

/-- Modelled from the spec: `common.getPercentile(sorteddata,
cumsortedweights, target, axis)` for the 1-D case - interpolate the data
value at the target cumulative fraction. -/
def getPercentile (xs cumw : List ℚ) (target : ℚ) : ℚ :=
  interpCdf (cumw.zip xs) target

/-- The percentile pipeline of `VariableAverage.getSlice` (lines
546-562, 1-D case): sort the data (weights permuted identically, modelled
by a stable sort of the pairs), accumulate the weights with a zero
anchor, build the interface grid, and interpolate at the target
fraction. -/
def wPercentile (d stag : List ℚ) (t : ℚ) : ℚ :=
  let pairs := sortByData (d.zip (normWeights stag))
  getPercentile (midGrid (pairs.map Prod.fst)) (0 :: cumsumFrom 0 (pairs.map Prod.snd)) t

/-- The weighted median: the percentile pipeline at fraction `0.5`
(line 569). -/
def wMedian (d stag : List ℚ) : ℚ := wPercentile d stag (1/2)

/-- The centre measure written to `slice.data`: the weighted mean for
`centermeasure = 0`, the weighted median for `centermeasure = 1`. -/
def avgCenter (cm : ℕ) (d stag : List ℚ) : ℚ :=
  if cm = 0 then wMean d stag else wMedian d stag

/-- How `VariableAverage.getSlice` records the confidence bounds: on the
standard-deviation path it stores `slice.data ∓/± sqrt(variance)`
(lines 575-578), on the percentile path the two interpolated percentile
values (lines 581-584). -/
inductive AvgBounds where
  | stddev (variance : ℚ)
  | percentile (plow phigh : ℚ)
  deriving DecidableEq, Repr

/-- The 0-D slice a 1-D `VariableAverage.getSlice` produces: the centre
value in `slice.data` plus the bounds recipe. -/
structure AvgResult where
  center : ℚ
  bounds : AvgBounds
  deriving DecidableEq, Repr

/-- The real-valued confidence bounds `(slice.lbound, slice.ubound)`
carried by an average result: `center - sqrt(variance)` and
`center + sqrt(variance)` on the standard-deviation path, the two
percentile values otherwise. -/
def AvgResult.hasBounds (r : AvgResult) (lo hi : ℝ) : Prop :=
  match r.bounds with
  | .stddev v => lo = (r.center : ℝ) - Real.sqrt (v : ℝ) ∧ hi = (r.center : ℝ) + Real.sqrt (v : ℝ)
  | .percentile a b => lo = (a : ℝ) ∧ hi = (b : ℝ)

/-- `VariableAverage.getSlice` (plot.py lines 505-588) for a 1-D source
variable, the source slice being what the source returns for the
inserted `(None, None)` bounds.  An invalid source slice yields the
empty `self.Slice()` (`.ok none`); mismatched staggered/data lengths
make the numpy broadcasts fail (`valueError`); unknown centre or bounds
measure codes hit `assert False`.  The weighted mean is computed (as the
code does whenever `centermeasure == 0 or boundsmeasure == 0`; computing
it unconditionally here changes no result), the centre is the mean or
the weighted median, and the bounds are `center ∓/± sqrt(E[x²] - E[x]²)`
for `boundsmeasure = 0` or the two-sided percentile band for
`boundsmeasure = 1` with `lowcrit = (1-percentilewidth)/2`. -/
def VariableAverage.getSlice (src : Slice1) (cm bm : ℕ) (pw : ℚ) :
    Except PyErr (Option AvgResult) :=
  match src.data, src.coords, src.coords_stag with
  | some d, some _c, some stag =>
    if stag.length ≠ d.length + 1 then .error .valueError
    else
      let weights := normWeights stag
      let mean := dotQ d weights
      let centerE : Except PyErr ℚ :=
        if cm = 0 then .ok mean
        else if cm = 1 then .ok (wMedian d stag)
        else .error .assertionError
      match centerE with
      | .error e => .error e
      | .ok center =>
        if bm = 0 then
          .ok (some ⟨center, .stddev (dotQ (d.map fun x => x * x) weights - mean * mean)⟩)
        else if bm = 1 then
          .ok (some ⟨center, .percentile (wPercentile d stag ((1 - pw) / 2))
            (wPercentile d stag (1 - (1 - pw) / 2))⟩)
        else .error .assertionError
  | _, _, _ => .ok none

/-- A skewed source slice (uniform weights over `[0, 0, 3]`) whose
weighted median `3/4` differs from its weighted mean `1`. -/
def skewDemoSlice : Slice1 :=
  ⟨some [0, 0, 3], some [0, 1, 2], some [-1/2, 1/2, 3/2, 5/2]⟩

/-- A dense n-D array in C (row-major) order: shape plus flat data.
numpy's `squeeze()` removes exactly the axes of length one and leaves
the flat data unchanged. -/
structure NDArray where
  shape : List ℕ
  flat : List ℚ
  deriving DecidableEq, Repr, Inhabited

/-- `array.squeeze()`: drop the length-one axes. -/
def NDArray.squeeze (a : NDArray) : NDArray :=
  ⟨a.shape.filter (fun n => n ≠ 1), a.flat⟩

/-- An n-D slice as `Slice.squeeze` reads it: dimension names, data,
per-dimension 1-D coordinate arrays (centres and interfaces), optional
confidence bounds, and the fixed coordinates a previous squeeze
recorded. -/
structure SliceN where
  dimensions : List String
  data : NDArray
  coords : List NDArray
  coords_stag : List NDArray
  lbound : Option NDArray
  ubound : Option NDArray
  fixedcoords : List (String × ℚ)
  deriving DecidableEq, Repr

/-- The dimension loop of `Slice.squeeze` (plot.py lines 195-212): the
dimension names are enumerated against `data.shape` and the coordinate
arrays in lockstep; a dimension of length more than one is kept (with
its coordinate arrays squeezed), a dimension of length exactly one is
recorded as a (name, first coordinate value) fixed pair, and a
zero-length dimension falls through both tests and is silently dropped.
Returns (kept names, kept centre coords, kept staggered coords, fixed
pairs). -/
def squeezeAux : List String → List ℕ → List NDArray → List NDArray →
    List String × List NDArray × List NDArray × List (String × ℚ)
  | dnm :: ds, n :: ns, c :: cs, g :: gs =>
    let r := squeezeAux ds ns cs gs
    if 1 < n then (dnm :: r.1, c.squeeze :: r.2.1, g.squeeze :: r.2.2.1, r.2.2.2)
    else if n = 1 then (r.1, r.2.1, r.2.2.1, (dnm, c.flat.getD 0 0) :: r.2.2.2)
    else (r.1, r.2.1, r.2.2.1, r.2.2.2)
  | _, _, _, _ => ([], [], [], [])

/-- `Slice.squeeze` (plot.py lines 190-218): a new slice built from the
kept dimensions, the numpy-squeezed data and confidence bounds, and the
fixed pairs of the singleton dimensions. -/
def SliceN.squeeze (s : SliceN) : SliceN :=
  let r := squeezeAux s.dimensions s.data.shape s.coords s.coords_stag
  ⟨r.1, s.data.squeeze, r.2.1, r.2.2.1,
   s.lbound.map NDArray.squeeze, s.ubound.map NDArray.squeeze, r.2.2.2⟩

/-- The output dimension list the claim describes: exactly the source
dimensions whose data length is not 1. -/
def dimsNotOne (s : SliceN) : List String :=
  ((s.dimensions.zip s.data.shape).filter (fun p => p.2 ≠ 1)).map Prod.fst

/-- The fixed coordinates the claim describes: a (name, coordinate
value) pair for every length-1 dimension, in dimension order. -/
def fixedPairs (s : SliceN) : List (String × ℚ) :=
  ((s.dimensions.zip (s.data.shape.zip s.coords)).filter (fun p => p.2.1 = 1)).map
    (fun p => (p.1, p.2.2.flat.getD 0 0))

/-- A valid-but-empty slice: dimension `a` has length zero.  (`Slice`
validity does not exclude empty dimensions.) -/
def emptyDimSlice : SliceN :=
  ⟨["a", "b"], ⟨[0, 3], []⟩, [⟨[0], []⟩, ⟨[3], [5, 6, 7]⟩],
   [⟨[1], [0]⟩, ⟨[4], [1, 2, 3, 4]⟩], none, none, []⟩

/-- A 1×2 slice whose first dimension is a singleton. -/
def squeezeDemoSlice : SliceN :=
  ⟨["t", "z"], ⟨[1, 2], [10, 20]⟩, [⟨[1], [7]⟩, ⟨[2], [0, 1]⟩],
   [⟨[2], [-1, 1]⟩, ⟨[3], [0, 1, 2]⟩], some ⟨[1, 2], [9, 19]⟩, some ⟨[1, 2], [11, 21]⟩, []⟩

/-- `unitlengths` of `getTimeTickSettings` (plot.py line 1578): length in
days of the tick unit selected by `location` (year/month/day/hour/
minute); any other location raises `KeyError` on lookup.  The Python
dict holds the floats `365`, `30.5`, `1.`, `1/24.`, `1/1440.`; exact
rationals are used here. -/
def unitlengthsQ : ℕ → Option ℚ
  | 0 => some 365
  | 1 => some (61/2)
  | 2 => some 1
  | 3 => some (1/24)
  | 4 => some (1/1440)
  | _ => none

/-- The default tick location (unit) and tick format selected from the
day span (plot.py lines 1579-1588). -/
def defaultLocFmt (dayspan : ℚ) : ℕ × ℕ :=
  if 2 ≤ dayspan / 365 then (0, 10)
  else if 61 ≤ dayspan then (1, 4)
  else if 2 ≤ dayspan then (2, 19)
  else if 2 ≤ 24 * dayspan then (3, 15)
  else (4, 15)

/-- Everything `getTimeTickSettings` computes: the effective location,
interval and format that are returned (plus the returned tick span
`interval*unitlength`), and the defaults it wrote to the default tree
node before the user-forced values were read back. -/
structure TickSettings where
  location : ℕ
  interval : ℚ
  tickformat : ℕ
  tickspan : ℚ
  defLocation : ℕ
  defFormat : ℕ
  defInterval : ℚ
  deriving DecidableEq, Repr

/-- `getTimeTickSettings` (plot.py lines 1573-1607).  The `settings` node
reads (`getValue(usedefault=True)`) are modelled by the `forced*`
options, which fall back to the default just stored.  `preferredcount`
is the default `8` (never overridden by any caller).  The two failure
modes — an unknown forced location (`KeyError` on `unitlengths`) and a
zero forced interval (`ZeroDivisionError` in `tickcount/interval`) — are
modelled as `none`. -/
def getTimeTickSettings (dayspan : ℚ) (forcedLoc forcedFmt : Option ℕ)
    (forcedInterval : Option ℚ) : Option TickSettings :=
  let d := defaultLocFmt dayspan
  let location := forcedLoc.getD d.1
  let tickformat := forcedFmt.getD d.2
  match unitlengthsQ location with
  | none => none
  | some ul =>
    let tickcount := dayspan / ul
    let defInterval : ℚ := max 1 ((⌈tickcount / 8⌉ : ℤ) : ℚ)
    let interval := forcedInterval.getD defInterval
    if interval = 0 then none
    else
      let interval2 := if 100 < tickcount / interval then ((⌈tickcount / 100⌉ : ℤ) : ℚ)
        else interval
      some ⟨location, interval2, tickformat, interval2 * ul, d.1, d.2, defInterval⟩

end XmlPlot

namespace XmlPlot

/-- C1: the slice-at-coordinate transform never performs the claimed
linear interpolation.  On the scenario-2 store (values `[10,12,14]` at
times `[0,1,2]`), slicing at `time = 0.5` raises `NameError` (the code
references the undefined names `dims`/`data`) instead of returning the
scalar `11`; no execution of `getSlice` ever returns a slice carrying
data, out-of-range targets yield the invalid slice as claimed, but a
target equal to the last coordinate also reaches the broken interior
path rather than returning an invalid slice. -/
theorem variableSlice_interior_raises :
    VariableSlice.getSlice timeDemoSlice (1/2) = .error .nameError ∧
    (∀ s v, sliceResultData (VariableSlice.getSlice s v) = none) ∧
    VariableSlice.getSlice timeDemoSlice (-1) = .ok ⟨none⟩ ∧
    VariableSlice.getSlice timeDemoSlice 0 = .ok ⟨none⟩ ∧
    VariableSlice.getSlice timeDemoSlice 3 = .ok ⟨none⟩ ∧
    VariableSlice.getSlice timeDemoSlice 2 = .error .nameError := by
  refine ⟨by norm_num [VariableSlice.getSlice, timeDemoSlice, searchsortedLeft], ?_,
    by norm_num [VariableSlice.getSlice, timeDemoSlice, searchsortedLeft],
    by norm_num [VariableSlice.getSlice, timeDemoSlice, searchsortedLeft],
    by norm_num [VariableSlice.getSlice, timeDemoSlice, searchsortedLeft],
    by norm_num [VariableSlice.getSlice, timeDemoSlice, searchsortedLeft]⟩
  intro s v
  obtain ⟨d, c, g⟩ := s
  cases c with
  | none => rfl
  | some cs =>
    simp only [VariableSlice.getSlice]
    split
    · rfl
    · split <;> rfl

/-- C7 (amended): the `completeStateChange` callbacks receive
`len(forcedseries) > 0`, i.e. whether any series is configured — not
whether any series was actually plotted. -/
theorem figure_callback_arg_spec (series : List SeriesCfg) :
    (figureUpdateRun series).2 = !series.isEmpty := by
  cases series <;> simp [figureUpdateRun]

/-- C7 counterexample: with a single configured series whose slice is
invalid, nothing is plotted, yet the callback receives `true`, whereas
the claim says it receives whether any series were plotted (`false`). -/
theorem figure_callback_counterexample :
    (figureUpdateRun [invalidSeries]).2 = true ∧
    plottedTotal [invalidSeries] = 0 ∧
    (figureUpdateRun [invalidSeries]).2 ≠ decide (0 < plottedTotal [invalidSeries]) := by
  decide

/-- Folding `addVariable` over a list of variables appends them all in
order. -/
theorem foldl_addVariable (vs : List CVar) :
    ∀ acc : List CVar, vs.foldl CustomVariableStore.addVariable acc = acc ++ vs := by
  induction vs with
  | nil => intro acc; simp
  | cons v vs ih =>
    intro acc
    simp [CustomVariableStore.addVariable, ih]

/-- C8 (amended): `CustomVariableStore` is append-only with no
uniqueness enforcement; `getVariable` is a linear scan returning the
**first** added variable with the requested name (first add wins), and
it returns `None` exactly when no added variable has that name. -/
theorem customStore_first_match_wins (vs : List CVar) (n : String) :
    CustomVariableStore.getVariable (vs.foldl CustomVariableStore.addVariable []) n
        = vs.find? (fun v => v.name == n) ∧
    (CustomVariableStore.getVariable vs n).isNone = vs.all (fun v => v.name != n) := by
  constructor
  · rw [foldl_addVariable]
    rfl
  · induction vs with
    | nil => rfl
    | cons v vs ih =>
      have hstep : CustomVariableStore.getVariable (v :: vs) n
          = if v.name == n then some v else CustomVariableStore.getVariable vs n := by
        rw [CustomVariableStore.getVariable, CustomVariableStore.getVariable]
        cases h : v.name == n <;> simp [List.find?, h]
      rw [hstep, List.all_cons]
      cases h : v.name == n <;> simp [h, bne, ih]

/-- C8 counterexample: after adding two variables that share the name
`a`, `getVariable` returns the first-added one, not the last-added one
as claimed. -/
theorem customStore_lastwins_counterexample :
    CustomVariableStore.getVariable
        (CustomVariableStore.addVariable
          (CustomVariableStore.addVariable [] ⟨"a", "first"⟩) ⟨"a", "second"⟩) "a"
      = some ⟨"a", "first"⟩ ∧
    decide ((some (⟨"a", "first"⟩ : CVar)) = some (⟨"a", "second"⟩ : CVar)) = false := by
  decide

/-- C10: `CustomVariableStore.getVariableLongNames` returns a plain list
of long names, not the short-name-keyed dictionary that the base-class
contract (and `getVariableTree`) requires: on a store holding one
variable `temp`/`Temperature` it returns `["Temperature"]`, which is not
a dict, while the base implementation over the same store would return
`{"temp": "Temperature"}`. -/
theorem customStore_longNames_not_dict :
    CustomVariableStore.getVariableLongNames tempStore
        = PyVal.list [PyVal.str "Temperature"] ∧
    (CustomVariableStore.getVariableLongNames tempStore).isDict = false ∧
    VariableStore.getVariableLongNamesBase
        (CustomVariableStore.getVariableNames tempStore)
        (fun n => (((CustomVariableStore.getVariable tempStore n).map CVar.longName).getD ""))
      = PyVal.dict [("temp", PyVal.str "Temperature")] := by
  refine ⟨rfl, rfl, rfl⟩

/-- C6: while updating is disabled, every `update()` call only sets the
dirty flag (rebuild counter and tree revision untouched); a subsequent
`setUpdating(True)` performs exactly one full rebuild when the dirty
flag is set and none otherwise, leaves the state clean, and every
completed rebuild clears the dirty flag. -/
theorem figure_update_coalescing (s : FigState) (h : s.updating = false) :
    Figure.update s = { s with dirty := true } ∧
    (Figure.setUpdating true s).rebuilds = s.rebuilds + (if s.dirty then 1 else 0) ∧
    (Figure.setUpdating true s).treeRev = s.treeRev + (if s.dirty then 1 else 0) ∧
    (Figure.setUpdating true s).dirty = false ∧
    (Figure.setUpdating true s).updating = true ∧
    (∀ t : FigState, t.updating = true → (Figure.update t).dirty = false) := by
  obtain ⟨u, dty, rb, tr⟩ := s
  simp only at h
  subst h
  refine ⟨by simp [Figure.update], ?_, ?_, ?_, ?_, ?_⟩
  · cases dty <;> simp [Figure.setUpdating, Figure.update]
  · cases dty <;> simp [Figure.setUpdating, Figure.update]
  · cases dty <;> simp [Figure.setUpdating, Figure.update]
  · cases dty <;> simp [Figure.setUpdating, Figure.update]
  · intro t ht
    obtain ⟨u2, d2, rb2, tr2⟩ := t
    simp only at ht
    subst ht
    simp [Figure.update]

/-- Witness: the coalescing theorem applied to a concrete suspended,
dirty figure state (one rebuild happens on re-enable). -/
theorem figure_update_coalescing_witness :
    suspendedDirtyFig.updating = false ∧
    (Figure.setUpdating true suspendedDirtyFig).rebuilds
        = suspendedDirtyFig.rebuilds + (if suspendedDirtyFig.dirty then 1 else 0) ∧
    (Figure.setUpdating true suspendedDirtyFig).dirty = false :=
  ⟨rfl, (figure_update_coalescing suspendedDirtyFig rfl).2.1,
    (figure_update_coalescing suspendedDirtyFig rfl).2.2.2.1⟩

/-- Every unit length the tick-location table yields is positive. -/
theorem unitlengthsQ_pos (l : ℕ) (q : ℚ) (h : unitlengthsQ l = some q) : 0 < q := by
  match l, h with
  | 0, h => injection h with h2; rw [← h2]; norm_num
  | 1, h => injection h with h2; rw [← h2]; norm_num
  | 2, h => injection h with h2; rw [← h2]; norm_num
  | 3, h => injection h with h2; rw [← h2]; norm_num
  | 4, h => injection h with h2; rw [← h2]; norm_num
  | (n+5), h => simp [unitlengthsQ] at h

/-- The 100-tick cap: for a nonnegative tick count and an effective
interval of at least one, dividing by the (possibly capped) interval
leaves at most 100 ticks. -/
theorem tickcap_le (t i : ℚ) (_ht : 0 ≤ t) (hi : 1 ≤ i) :
    t / (if 100 < t / i then ((⌈t / 100⌉ : ℤ) : ℚ) else i) ≤ 100 := by
  split
  case isTrue h =>
    have hi0 : (0:ℚ) < i := by linarith
    have ht100 : 100 * i < t := (lt_div_iff₀ hi0).mp h
    have hceil : t / 100 ≤ ((⌈t / 100⌉ : ℤ) : ℚ) := Int.le_ceil (t / 100)
    have h1t : (1:ℚ) < t / 100 := by
      rw [lt_div_iff₀ (by norm_num : (0:ℚ) < 100)]
      linarith
    have hc0 : (0:ℚ) < ((⌈t / 100⌉ : ℤ) : ℚ) := by linarith
    rw [div_le_iff₀ hc0]
    linarith
  case isFalse h =>
    have h2 : t / i ≤ 100 := le_of_not_lt h
    linarith

/-- C9: for every nonnegative day span and every combination of forced
and default tick unit/format/interval settings that does not itself
raise (valid unit, nonzero interval) and whose forced interval, if any,
is at least one, the returned interval keeps the resulting tick count
`dayspan / unitlength / interval` at or below 100; with no forced
interval the default interval stored is `max 1 ⌈tickcount/8⌉`
(preferredcount = 8). -/
theorem timeTick_interval_bounded (dayspan : ℚ) (fl ff : Option ℕ) (fi : Option ℚ)
    (ts : TickSettings)
    (hspan : 0 ≤ dayspan) (hi : 1 ≤ fi.getD 1)
    (hres : getTimeTickSettings dayspan fl ff fi = some ts) :
    dayspan / (unitlengthsQ ts.location).getD 1 / ts.interval ≤ 100 ∧
    (fi = none →
      ts.defInterval
        = max 1 ((⌈dayspan / (unitlengthsQ ts.location).getD 1 / 8⌉ : ℤ) : ℚ)) := by
  simp only [getTimeTickSettings] at hres
  cases hu : unitlengthsQ (fl.getD (defaultLocFmt dayspan).1) with
  | none => rw [hu] at hres; exact absurd hres (by simp)
  | some ul =>
    rw [hu] at hres
    simp only at hres
    have hulpos : 0 < ul := unitlengthsQ_pos _ _ hu
    have hint : 1 ≤ fi.getD (max 1 ((⌈dayspan / ul / 8⌉ : ℤ) : ℚ)) := by
      cases fi with
      | none => exact le_max_left 1 _
      | some x => exact hi
    have hne : fi.getD (max 1 ((⌈dayspan / ul / 8⌉ : ℤ) : ℚ)) ≠ 0 := by
      intro h0
      rw [h0] at hint
      norm_num at hint
    rw [if_neg hne] at hres
    have hts := (Option.some.injEq _ _).mp hres
    subst hts
    constructor
    · simp only [hu, Option.getD_some]
      exact tickcap_le (dayspan / ul) _ (div_nonneg hspan hulpos.le) hint
    · intro hfi
      subst hfi
      simp only [hu, Option.getD_some]

/-- Witness: the tick-count bound applied to a concrete span of 1000
days with no forced settings; the year unit is selected with interval 1
(about 2.7 ticks). -/
theorem timeTick_interval_bounded_witness :
    (0:ℚ) ≤ 1000 ∧ (1:ℚ) ≤ (none : Option ℚ).getD 1 ∧
    getTimeTickSettings 1000 none none none = some ⟨0, 1, 10, 365, 0, 10, 1⟩ ∧
    (1000:ℚ) / (unitlengthsQ (0:ℕ)).getD 1 / 1 ≤ 100 := by
  have hc : (⌈(25:ℚ) / 73⌉ : ℤ) = 1 := by
    rw [Int.ceil_eq_iff]
    norm_num
  have hres : getTimeTickSettings 1000 none none none = some ⟨0, 1, 10, 365, 0, 10, 1⟩ := by
    norm_num [getTimeTickSettings, defaultLocFmt, unitlengthsQ, hc]
  refine ⟨by norm_num, by norm_num, hres, ?_⟩
  have h := timeTick_interval_bounded 1000 none none none ⟨0, 1, 10, 365, 0, 10, 1⟩
    (by norm_num) (by norm_num) hres
  exact h.1

/-- Each fill loop contributes exactly `m` entries per target index. -/
theorem buildFlatFrom_length (m : ℕ) (f : ℕ → ℕ → ℚ) :
    ∀ k i, (buildFlatFrom m f i k).length = k * m := by
  intro k
  induction k with
  | zero => intro i; simp [buildFlatFrom]
  | succ k ih =>
    intro i
    simp only [buildFlatFrom, List.length_append, List.length_map, List.length_range, ih]
    ring

/-- Position `i*m + j` of the filled array holds the value written by
the `i`-th iteration at offset `j`. -/
theorem buildFlatFrom_getD (m : ℕ) (f : ℕ → ℕ → ℚ) :
    ∀ k i0 i j, i < k → j < m →
      (buildFlatFrom m f i0 k).getD (i * m + j) 0 = f (i0 + i) j := by
  intro k
  induction k with
  | zero => intro i0 i j hi hj; omega
  | succ k ih =>
    intro i0 i j hi hj
    cases i with
    | zero =>
      simp only [buildFlatFrom, Nat.zero_mul, Nat.zero_add]
      rw [List.getD_append _ _ _ _ (by simpa using hj)]
      simp [List.getD_eq_getElem?_getD, List.getElem?_range hj]
    | succ i =>
      have harith : (i + 1) * m + j = m + (i * m + j) := by ring
      simp only [buildFlatFrom, harith]
      rw [List.getD_append_right _ _ _ _ (by simp)]
      have hlen : m + (i * m + j) - ((List.range m).map (f i0)).length = i * m + j := by
        simp
      have harg : i0 + 1 + i = i0 + (i + 1) := by omega
      rw [hlen, ih (i0 + 1) i j (by omega) hj, harg]

/-- Chunk `i` of the reshaped flat array is the block written by the
`i`-th iteration of the fill loop. -/
theorem chunkExact_buildFlatFrom_getD (m : ℕ) (f : ℕ → ℕ → ℚ) :
    ∀ k i0 i, i < k →
      (chunkExact m k (buildFlatFrom m f i0 k)).getD i [] = (List.range m).map (f (i0 + i)) := by
  intro k
  induction k with
  | zero => intro i0 i hi; omega
  | succ k ih =>
    intro i0 i hi
    cases i with
    | zero =>
      simp only [chunkExact, buildFlatFrom, List.getD_cons_zero]
      rw [List.take_left' (by simp)]
      simp
    | succ i =>
      simp only [chunkExact, buildFlatFrom, List.getD_cons_succ]
      rw [List.drop_left' (by simp)]
      have harg : i0 + 1 + i = i0 + (i + 1) := by omega
      rw [ih (i0 + 1) i (by omega), harg]

/-- C3: for the flatten transform over a valid 2-D source slice with 1-D
coordinates on both dimensions, for every `i` along the target dimension
and `j` along the eliminated dimension, the output value at position
`i*sourcecount + j` of the (1-D) target axis equals the source value at
(target = `i`, eliminated = `j`), the new target coordinate at that
position equals the target's original coordinate at `i`, and reshaping
the flattened array back into `targetcount` rows of `sourcecount`
recovers the original value at every such pair exactly. -/
theorem variableFlat_getSlice_spec (src : Slice2) (idim i j : ℕ)
    (hi : i < flatTargetCount src idim) (hj : j < flatSourceCount src idim) :
    (VariableFlat.getSlice src idim).data.getD (i * flatSourceCount src idim + j) 0
        = srcValueAt src idim i j ∧
    (VariableFlat.getSlice src idim).coordsT.getD (i * flatSourceCount src idim + j) 0
        = (flatTargetCoords src idim).getD i 0 ∧
    ((chunkExact (flatSourceCount src idim) (flatTargetCount src idim)
        (VariableFlat.getSlice src idim).data).getD i []).getD j 0
        = srcValueAt src idim i j := by
  refine ⟨?_, ?_, ?_⟩
  · have h := buildFlatFrom_getD (flatSourceCount src idim)
      (fun a b => srcValueAt src idim a b) (flatTargetCount src idim) 0 i j hi hj
    simpa [VariableFlat.getSlice] using h
  · have h := buildFlatFrom_getD (flatSourceCount src idim)
      (fun a _ => (flatTargetCoords src idim).getD a 0) (flatTargetCount src idim) 0 i j hi hj
    simpa [VariableFlat.getSlice] using h
  · have h := chunkExact_buildFlatFrom_getD (flatSourceCount src idim)
      (fun a b => srcValueAt src idim a b) (flatTargetCount src idim) 0 i hi
    simp only [VariableFlat.getSlice]
    rw [h]
    simp [List.getD_eq_getElem?_getD, List.getElem?_map, List.getElem?_range hj]

/-- Witness: flatten the 2×3 demo slice (eliminating dimension 1 into
dimension 0); position `1*3 + 2` of the output holds the source value at
(target = 1, eliminated = 2), which is `6`, under the target coordinate
`20`. -/
theorem variableFlat_getSlice_spec_witness :
    1 < flatTargetCount flatDemoSlice 1 ∧ 2 < flatSourceCount flatDemoSlice 1 ∧
    srcValueAt flatDemoSlice 1 1 2 = 6 ∧
    (flatTargetCoords flatDemoSlice 1).getD 1 0 = 20 ∧
    (VariableFlat.getSlice flatDemoSlice 1).data.getD (1 * flatSourceCount flatDemoSlice 1 + 2) 0
        = srcValueAt flatDemoSlice 1 1 2 ∧
    (VariableFlat.getSlice flatDemoSlice 1).coordsT.getD (1 * flatSourceCount flatDemoSlice 1 + 2) 0
        = (flatTargetCoords flatDemoSlice 1).getD 1 0 := by
  have h := variableFlat_getSlice_spec flatDemoSlice 1 1 2 (by decide) (by decide)
  exact ⟨by decide, by decide, by decide, by decide, h.1, h.2.1⟩

/-- The computed first merged index is never negative. -/
theorem mergedIFirst_nonneg (lb : Option ℚ) : 0 ≤ mergedIFirst lb := by
  cases lb with
  | none => exact le_refl 0
  | some x =>
    simp only [mergedIFirst]
    split
    case isTrue h => exact Int.floor_nonneg.mpr (le_of_lt h)
    case isFalse h => exact le_refl 0

/-- The computed last merged index never exceeds `N - 1`. -/
theorem mergedILast_le (n : ℕ) (ub : Option ℚ) : mergedILast n ub ≤ (n : ℤ) - 1 := by
  cases ub with
  | none => exact le_refl _
  | some x =>
    simp only [mergedILast]
    split
    case isTrue h =>
      rw [Int.ceil_le]
      push_cast
      linarith
    case isFalse h => exact le_refl _

/-- The first index is the claim's `max 0 ⌊lb⌋` (the floor clamped from
below). -/
theorem mergedIFirst_eq_max (x : ℚ) : mergedIFirst (some x) = max 0 ⌊x⌋ := by
  simp only [mergedIFirst]
  split
  case isTrue h =>
    rw [max_eq_right]
    exact Int.floor_nonneg.mpr (le_of_lt h)
  case isFalse h =>
    rw [max_eq_left]
    exact Int.floor_nonpos (le_of_not_lt h)

/-- The last index is `min (N-1) ⌈ub⌉` (the ceiling clamped from
above). -/
theorem mergedILast_eq_min (n : ℕ) (x : ℚ) :
    mergedILast n (some x) = min ((n : ℤ) - 1) ⌈x⌉ := by
  simp only [mergedILast]
  split
  case isTrue h =>
    rw [min_eq_right]
    rw [Int.ceil_le]
    push_cast
    linarith
  case isFalse h =>
    rw [min_eq_left]
    have hx : ((n : ℚ) - 1) ≤ x := le_of_not_lt h
    have := (Int.le_ceil x).trans' hx
    rw [show ((n : ℤ) - 1 : ℤ) = ((n : ℤ) - 1) from rfl]
    have hcast : (((n : ℤ) - 1 : ℤ) : ℚ) ≤ (⌈x⌉ : ℚ) := by
      push_cast
      exact this.trans (le_refl _)
    exact_mod_cast hcast

/-- Python slicing with in-range nonnegative bounds is plain
take-then-drop. -/
theorem pySlice_of_bounds {α : Type} (xs : List α) (a b : ℤ)
    (h0 : 0 ≤ a) (hab : a ≤ b) (hbN : b ≤ (xs.length : ℤ)) :
    pySlice xs a b = (xs.take b.toNat).drop a.toNat := by
  simp only [pySlice]
  rw [if_neg (by omega), if_neg (by omega), min_eq_left (by omega), min_eq_left (by omega)]

/-- The row loop succeeds and stacks the rows in order when every
selected slice carries data of the preallocated width. -/
theorem gatherRows_ok (L : ℕ) :
    ∀ (sel : List Slice1) (ds : List (List ℚ)),
      sel.map Slice1.data = ds.map some → (∀ r ∈ ds, r.length = L) →
      gatherRows L sel = .ok ds := by
  intro sel
  induction sel with
  | nil =>
    intro ds hmap _
    cases ds with
    | nil => rfl
    | cons d ds => exact absurd hmap (by simp)
  | cons s rest ih =>
    intro ds hmap hlen
    cases ds with
    | nil => exact absurd hmap (by simp)
    | cons d ds =>
      simp only [List.map_cons, List.cons.injEq] at hmap
      simp only [gatherRows, hmap.1]
      rw [if_pos (hlen d (by simp))]
      rw [ih ds hmap.2 (fun r hr => hlen r (by simp [hr]))]
      rfl

/-- C4 (amended): `getSlice` on the merged dimension computes
`ifirst = max 0 ⌊lb⌋` (lower bound clamped from below only) and
`ilast = min (N-1) ⌈ub⌉` (upper bound clamped from above only); whenever
the selected range `ifirst..ilast` is nonempty and every selected
store's slice is valid with a common data shape, the result is the
concatenation, in store order, of the selected stores' slices along a
new leading axis carrying the integer coordinates `ifirst..ilast`, with
the inner coordinates taken from the first included store's slice.  In
particular bounds partially outside `[0, N-1]` clamp rather than
fail. -/
theorem mergedVariable_getSlice_concat (inners : List Slice1) (lb ub : Option ℚ)
    (ds : List (List ℚ)) (L : ℕ)
    (hle : mergedIFirst lb ≤ mergedILast inners.length ub)
    (hdata : (pySlice inners (mergedIFirst lb) (mergedILast inners.length ub + 1)).map Slice1.data
        = ds.map some)
    (hlen : ∀ r ∈ ds, r.length = L) :
    MergedVariable.getSlice inners lb ub
      = .ok ⟨(List.range (mergedILast inners.length ub + 1 - mergedIFirst lb).toNat).map
               (fun k => ((mergedIFirst lb : ℚ) + (k : ℚ))),
             some ds,
             ((pySlice inners (mergedIFirst lb) (mergedILast inners.length ub + 1)).headI).coords⟩ ∧
    (∀ x, lb = some x → mergedIFirst lb = max 0 ⌊x⌋) ∧
    (∀ x, ub = some x → mergedILast inners.length ub = min ((inners.length : ℤ) - 1) ⌈x⌉) := by
  refine ⟨?_, fun x hx => by rw [hx, mergedIFirst_eq_max],
    fun x hx => by rw [hx, mergedILast_eq_min]⟩
  have hlo0 : 0 ≤ mergedIFirst lb := mergedIFirst_nonneg lb
  have hhiN : mergedILast inners.length ub ≤ (inners.length : ℤ) - 1 :=
    mergedILast_le inners.length ub
  have hps : pySlice inners (mergedIFirst lb) (mergedILast inners.length ub + 1)
      = (inners.take (mergedILast inners.length ub + 1).toNat).drop (mergedIFirst lb).toNat :=
    pySlice_of_bounds inners _ _ hlo0 (by omega) (by omega)
  have hplen : (pySlice inners (mergedIFirst lb) (mergedILast inners.length ub + 1)).length
      = (mergedILast inners.length ub + 1).toNat - (mergedIFirst lb).toNat := by
    rw [hps]
    simp only [List.length_drop, List.length_take]
    omega
  have hne : pySlice inners (mergedIFirst lb) (mergedILast inners.length ub + 1) ≠ [] := by
    intro hnil
    rw [hnil] at hplen
    simp only [List.length_nil] at hplen
    omega
  cases hsel : pySlice inners (mergedIFirst lb) (mergedILast inners.length ub + 1) with
  | nil => exact absurd hsel hne
  | cons s0 rest =>
    rw [hsel] at hdata
    cases ds with
    | nil => exact absurd hdata (by simp)
    | cons d0 ds' =>
      simp only [List.map_cons, List.cons.injEq] at hdata
      have hgather : gatherRows d0.length (s0 :: rest) = .ok (d0 :: ds') := by
        apply gatherRows_ok
        · simp [hdata.1, hdata.2]
        · intro r hr
          rw [hlen r hr, hlen d0 (by simp)]
      simp only [MergedVariable.getSlice]
      rw [hsel, if_neg (by omega)]
      simp only [hdata.1, hgather, hsel, List.headI]

/-- Witness: two merged stores sliced with bounds `(-0.5, 1.5)` that lie
partially outside `[0, 1]`: both clamp, both stores are stacked in
order, and the leading coordinates are `[0, 1]`. -/
theorem mergedVariable_getSlice_concat_witness :
    mergedIFirst (some (-1/2)) ≤ mergedILast mergedDemoInners.length (some (3/2)) ∧
    (pySlice mergedDemoInners (mergedIFirst (some (-1/2)))
        (mergedILast mergedDemoInners.length (some (3/2)) + 1)).map Slice1.data
      = [[(10:ℚ), 12], [20, 22]].map some ∧
    MergedVariable.getSlice mergedDemoInners (some (-1/2)) (some (3/2))
      = .ok ⟨(List.range (mergedILast mergedDemoInners.length (some (3/2)) + 1
                - mergedIFirst (some (-1/2))).toNat).map
               (fun k => ((mergedIFirst (some (-1/2)) : ℚ) + (k : ℚ))),
             some [[10, 12], [20, 22]],
             ((pySlice mergedDemoInners (mergedIFirst (some (-1/2)))
                (mergedILast mergedDemoInners.length (some (3/2)) + 1)).headI).coords⟩ := by
  have hlo : mergedIFirst (some (-1/2)) = 0 := by
    simp only [mergedIFirst]
    rw [if_neg (by norm_num)]
  have hhi : mergedILast mergedDemoInners.length (some (3/2)) = 1 := by
    simp only [mergedILast, mergedDemoInners]
    rw [if_neg (by norm_num)]
    rfl
  have h1 : mergedIFirst (some (-1/2)) ≤ mergedILast mergedDemoInners.length (some (3/2)) := by
    rw [hlo, hhi]
    norm_num
  have h2 : (pySlice mergedDemoInners (mergedIFirst (some (-1/2)))
      (mergedILast mergedDemoInners.length (some (3/2)) + 1)).map Slice1.data
      = [[(10:ℚ), 12], [20, 22]].map some := by
    rw [hlo, hhi]
    rfl
  exact ⟨h1, h2,
    (mergedVariable_getSlice_concat mergedDemoInners (some (-1/2)) (some (3/2))
      [[10, 12], [20, 22]] 2 h1 h2 (by intro r hr; fin_cases hr <;> rfl)).1⟩

/-- C4 counterexample: with `N = 2` stores and bounds `(-5, -3.5)`,
the code computes `ifirst = 0`, `ilast = ⌈-3.5⌉ = -3`, selects no store
and returns an invalid slice with no data and empty coordinates, whereas
the claim's clamping of both bounds into `[0, N-1]` selects store `0`
and would return its slice stacked with leading coordinate `[0]`. -/
theorem mergedVariable_clamp_counterexample :
    MergedVariable.getSlice mergedDemoInners (some (-5)) (some (-7/2)) = .ok ⟨[], none, none⟩ ∧
    claimedMergedRange 2 (some (-5)) (some (-7/2)) = (0, 0) ∧
    (none : Option (List (List ℚ))) ≠ some [[10, 12]] := by
  have hceil : (⌈(-7/2 : ℚ)⌉ : ℤ) = -3 := by
    rw [Int.ceil_eq_iff]
    norm_num
  have hfloor : (⌊(-5 : ℚ)⌋ : ℤ) = -5 := by
    rw [Int.floor_eq_iff]
    norm_num
  refine ⟨?_, ?_, by simp⟩
  · have hlo : mergedIFirst (some (-5)) = 0 := by
      simp only [mergedIFirst]
      rw [if_neg (by norm_num)]
    have hhi : mergedILast mergedDemoInners.length (some (-7/2)) = -3 := by
      simp only [mergedILast, mergedDemoInners]
      rw [if_pos (by norm_num), hceil]
    simp only [MergedVariable.getSlice, hlo, hhi]
    rw [if_pos (by norm_num)]
    rfl
  · simp only [claimedMergedRange, hceil, hfloor]
    norm_num

/-- C2 (amended): for every valid 1-D source slice (staggered
coordinates one longer than the data) and every supported centre
measure, the standard-deviation bounds path returns the configured
centre (weighted mean for `centerMeasure = 0`, weighted median for
`centerMeasure = 1`) with bounds `center ∓/± sqrt(E[x²] - E[x]²)`, the
expectations using the cell-width weights (diff of the staggered
coordinates) normalized to unit sum; for `centerMeasure = mean` the
bounds are `mean ∓/± sqrt(E[x²] - E[x]²)` exactly as the claim
states. -/
theorem variableAverage_stddev_bounds (d cs stag : List ℚ) (cm : ℕ) (pw : ℚ)
    (hlen : stag.length = d.length + 1) (hcm : cm ≤ 1) :
    VariableAverage.getSlice ⟨some d, some cs, some stag⟩ cm 0 pw
      = .ok (some ⟨avgCenter cm d stag, .stddev (wVar d stag)⟩) ∧
    avgCenter 0 d stag = wMean d stag ∧
    (AvgResult.mk (avgCenter cm d stag) (.stddev (wVar d stag))).hasBounds
      ((avgCenter cm d stag : ℝ) - Real.sqrt ((wVar d stag : ℚ) : ℝ))
      ((avgCenter cm d stag : ℝ) + Real.sqrt ((wVar d stag : ℚ) : ℝ)) := by
  refine ⟨?_, by simp [avgCenter, wMean], ⟨rfl, rfl⟩⟩
  interval_cases cm <;>
    simp [VariableAverage.getSlice, hlen, avgCenter, wVar, wMean]

/-- Witness: the standard-deviation bounds applied to scenario 3 — the
variable `[10, 12, 14]` averaged with uniform weights has mean 12 and
variance `((10-12)² + (12-12)² + (14-12)²)/3 = 8/3`. -/
theorem variableAverage_stddev_bounds_witness :
    ([-1/2, 1/2, 3/2, 5/2] : List ℚ).length = ([10, 12, 14] : List ℚ).length + 1 ∧
    (0 : ℕ) ≤ 1 ∧
    VariableAverage.getSlice ⟨some [10, 12, 14], some [0, 1, 2], some [-1/2, 1/2, 3/2, 5/2]⟩
        0 0 (1/2)
      = .ok (some ⟨avgCenter 0 [10, 12, 14] [-1/2, 1/2, 3/2, 5/2],
                   .stddev (wVar [10, 12, 14] [-1/2, 1/2, 3/2, 5/2])⟩) ∧
    wMean [10, 12, 14] [-1/2, 1/2, 3/2, 5/2] = 12 ∧
    wVar [10, 12, 14] [-1/2, 1/2, 3/2, 5/2] = 8/3 := by
  refine ⟨by simp, by norm_num,
    (variableAverage_stddev_bounds [10, 12, 14] [0, 1, 2] [-1/2, 1/2, 3/2, 5/2] 0 (1/2)
      (by simp) (by norm_num)).1, ?_, ?_⟩
  · norm_num [wMean, normWeights, diffList, dotQ]
  · norm_num [wVar, wMean, normWeights, diffList, dotQ]

/-- C2 counterexample: on the uniform-weight slice `[0, 0, 3]` with
`centerMeasure = median` and `boundsMeasure = stddev`, the weighted mean
is `1` and the variance is `2`, but the code returns centre `3/4` (the
weighted median), so the slice's bounds are `3/4 ∓/± √2` — not the
`mean ∓/± sqrt(E[x²] - E[x]²) = 1 ∓/± √2` the claim asserts for every
centre measure. -/
theorem variableAverage_meanBounds_counterexample :
    VariableAverage.getSlice skewDemoSlice 1 0 (1/2) = .ok (some ⟨3/4, .stddev 2⟩) ∧
    wMean [0, 0, 3] [-1/2, 1/2, 3/2, 5/2] = 1 ∧
    wVar [0, 0, 3] [-1/2, 1/2, 3/2, 5/2] = 2 ∧
    ¬ (AvgResult.mk (3/4) (.stddev 2)).hasBounds
        ((1 : ℝ) - Real.sqrt ((2 : ℚ) : ℝ)) ((1 : ℝ) + Real.sqrt ((2 : ℚ) : ℝ)) := by
  refine ⟨?_, ?_, ?_, ?_⟩
  · norm_num [VariableAverage.getSlice, skewDemoSlice, wMedian, wPercentile, normWeights,
      diffList, dotQ, sortByData, insertByData, midGrid, cumsumFrom, getPercentile, interpCdf]
  · norm_num [wMean, normWeights, diffList, dotQ]
  · norm_num [wVar, wMean, normWeights, diffList, dotQ]
  · intro hb
    have h1 := hb.1
    simp only [AvgResult.hasBounds] at h1
    push_cast at h1
    linarith

/-- The dimension loop of `squeeze`, characterised against filters of
the zipped (name, length, coords) lists: kept names are those paired
with a length above one, the kept coordinate lists stay in lockstep, and
the fixed pairs come from the length-one dimensions in order. -/
theorem squeezeAux_spec :
    ∀ (ds : List String) (ns : List ℕ) (cs gs : List NDArray),
      ds.length = ns.length → cs.length = ns.length → gs.length = ns.length →
      (squeezeAux ds ns cs gs).1 = ((ds.zip ns).filter (fun p => 1 < p.2)).map Prod.fst ∧
      (squeezeAux ds ns cs gs).2.1.length = ((ds.zip ns).filter (fun p => 1 < p.2)).length ∧
      (squeezeAux ds ns cs gs).2.2.1.length = ((ds.zip ns).filter (fun p => 1 < p.2)).length ∧
      (squeezeAux ds ns cs gs).2.2.2 = ((ds.zip (ns.zip cs)).filter (fun p => p.2.1 = 1)).map
          (fun p => (p.1, p.2.2.flat.getD 0 0)) := by
  intro ds
  induction ds with
  | nil => intro ns cs gs hd hc hg; simp [squeezeAux]
  | cons dnm ds ih =>
    intro ns cs gs hd hc hg
    cases ns with
    | nil => simp at hd
    | cons n ns =>
      cases cs with
      | nil => simp at hc
      | cons c cs =>
        cases gs with
        | nil => simp at hg
        | cons g gs =>
          simp only [List.length_cons, Nat.succ.injEq] at hd hc hg
          have r := ih ns cs gs hd hc hg
          by_cases h1 : 1 < n
          · have h2 : ¬ n = 1 := by omega
            simp only [squeezeAux, if_pos h1, List.zip_cons_cons, List.filter_cons,
              decide_eq_true_eq, if_neg h2]
            simp [r.1, r.2.1, r.2.2.1, r.2.2.2, h1]
          · by_cases h2 : n = 1
            · subst h2
              simp only [squeezeAux, List.zip_cons_cons, List.filter_cons, decide_eq_true_eq]
              simp [r.1, r.2.1, r.2.2.1, r.2.2.2]
            · simp only [squeezeAux, if_neg h1, if_neg h2, List.zip_cons_cons,
                List.filter_cons, decide_eq_true_eq]
              simp [r.1, r.2.1, r.2.2.1, r.2.2.2, h1, h2]

/-- When every remaining length is above one, the dimension loop keeps
everything (coordinates squeezed) and records no fixed pair. -/
theorem squeezeAux_all_gt :
    ∀ (ds : List String) (ns : List ℕ) (cs gs : List NDArray),
      ds.length = ns.length → cs.length = ns.length → gs.length = ns.length →
      (∀ n ∈ ns, 1 < n) →
      (squeezeAux ds ns cs gs).1 = ds := by
  intro ds
  induction ds with
  | nil => intro ns cs gs hd hc hg hall; simp [squeezeAux]
  | cons dnm ds ih =>
    intro ns cs gs hd hc hg hall
    cases ns with
    | nil => simp at hd
    | cons n ns =>
      cases cs with
      | nil => simp at hc
      | cons c cs =>
        cases gs with
        | nil => simp at hg
        | cons g gs =>
          simp only [List.length_cons, Nat.succ.injEq] at hd hc hg
          have h1 : 1 < n := hall n (by simp)
          simp only [squeezeAux, if_pos h1]
          rw [ih ns cs gs hd hc hg (fun m hm => hall m (by simp [hm]))]

/-- Dropping the names from the kept-dimension filter leaves the filter
of the lengths alone. -/
theorem zip_filter_snd :
    ∀ (ds : List String) (ns : List ℕ), ds.length = ns.length →
      ((ds.zip ns).filter (fun p => 1 < p.2)).map Prod.snd = ns.filter (fun n => 1 < n) := by
  intro ds
  induction ds with
  | nil =>
    intro ns hd
    cases ns with
    | nil => rfl
    | cons n ns => simp at hd
  | cons dnm ds ih =>
    intro ns hd
    cases ns with
    | nil => simp at hd
    | cons n ns =>
      simp only [List.length_cons, Nat.succ.injEq] at hd
      by_cases h1 : 1 < n
      · simp only [List.zip_cons_cons, List.filter_cons, decide_eq_true_eq]
        rw [if_pos h1, if_pos h1]
        simp [ih ns hd]
      · simp only [List.zip_cons_cons, List.filter_cons, decide_eq_true_eq]
        rw [if_neg h1, if_neg h1]
        exact ih ns hd

/-- Lengths at least one make "length not one" and "length above one"
the same dimension test. -/
theorem filter_ne_one_eq_gt (ns : List ℕ) (h : ∀ n ∈ ns, 1 ≤ n) :
    ns.filter (fun n => n ≠ 1) = ns.filter (fun n => 1 < n) := by
  apply List.filter_congr
  intro n hn
  have := h n hn
  simp only [decide_eq_decide]
  omega

/-- C5 (amended): for every valid slice all of whose dimensions are
nonempty (length at least 1) with well-formed per-dimension coordinate
lists, `squeeze()` keeps exactly the dimensions whose data length is not
1, records each length-1 dimension as a (name, coordinate value) pair in
`fixedcoords`, squeezes the confidence bounds identically when present,
and is idempotent: squeezing an already-squeezed slice leaves both the
dimension list and the data unchanged.  (The nonemptiness hypothesis is
forced: a zero-length dimension is dropped from the dimension list while
its axis survives `data.squeeze()`, breaking both the dimension-list
characterisation and idempotence.) -/
theorem slice_squeeze_spec (s : SliceN)
    (h1 : s.data.shape.length = s.dimensions.length)
    (h2 : s.coords.length = s.dimensions.length)
    (h3 : s.coords_stag.length = s.dimensions.length)
    (h4 : ∀ n ∈ s.data.shape, 1 ≤ n) :
    s.squeeze.dimensions = dimsNotOne s ∧
    s.squeeze.fixedcoords = fixedPairs s ∧
    s.squeeze.lbound = s.lbound.map NDArray.squeeze ∧
    s.squeeze.ubound = s.ubound.map NDArray.squeeze ∧
    s.squeeze.squeeze.dimensions = s.squeeze.dimensions ∧
    s.squeeze.squeeze.data = s.squeeze.data := by
  have hd : s.dimensions.length = s.data.shape.length := h1.symm
  have hc : s.coords.length = s.data.shape.length := h2.trans h1.symm
  have hg : s.coords_stag.length = s.data.shape.length := h3.trans h1.symm
  have hspec := squeezeAux_spec s.dimensions s.data.shape s.coords s.coords_stag hd hc hg
  have hfiltcong :
      ((s.dimensions.zip s.data.shape).filter (fun p => 1 < p.2))
        = ((s.dimensions.zip s.data.shape).filter (fun p => p.2 ≠ 1)) := by
    apply List.filter_congr
    intro p hp
    have hmem : p.2 ∈ s.data.shape := (List.of_mem_zip hp).2
    have := h4 p.2 hmem
    simp only [decide_eq_decide]
    omega
  refine ⟨?_, ?_, rfl, rfl, ?_, ?_⟩
  · rw [show s.squeeze.dimensions
        = (squeezeAux s.dimensions s.data.shape s.coords s.coords_stag).1 from rfl]
    rw [hspec.1, hfiltcong]
    rfl
  · exact hspec.2.2.2
  · -- idempotence of the dimension list
    have hshape2 : s.squeeze.data.shape = s.data.shape.filter (fun n => 1 < n) := by
      rw [show s.squeeze.data.shape = s.data.shape.filter (fun n => n ≠ 1) from rfl]
      exact filter_ne_one_eq_gt s.data.shape h4
    have hlen1 : s.squeeze.dimensions.length = s.squeeze.data.shape.length := by
      rw [show s.squeeze.dimensions
            = (squeezeAux s.dimensions s.data.shape s.coords s.coords_stag).1 from rfl]
      rw [hspec.1, hshape2, List.length_map]
      rw [← zip_filter_snd s.dimensions s.data.shape hd, List.length_map]
    have hlen2 : s.squeeze.coords.length = s.squeeze.data.shape.length := by
      rw [show s.squeeze.coords
            = (squeezeAux s.dimensions s.data.shape s.coords s.coords_stag).2.1 from rfl]
      rw [hspec.2.1, hshape2]
      rw [← zip_filter_snd s.dimensions s.data.shape hd, List.length_map]
    have hlen3 : s.squeeze.coords_stag.length = s.squeeze.data.shape.length := by
      rw [show s.squeeze.coords_stag
            = (squeezeAux s.dimensions s.data.shape s.coords s.coords_stag).2.2.1 from rfl]
      rw [hspec.2.2.1, hshape2]
      rw [← zip_filter_snd s.dimensions s.data.shape hd, List.length_map]
    have hall : ∀ n ∈ s.squeeze.data.shape, 1 < n := by
      rw [hshape2]
      intro n hn
      have := List.of_mem_filter hn
      simpa using this
    exact squeezeAux_all_gt s.squeeze.dimensions s.squeeze.data.shape s.squeeze.coords
      s.squeeze.coords_stag hlen1 hlen2 hlen3 hall
  · -- idempotence of the data
    have hidem : ∀ ns : List ℕ,
        (ns.filter (fun n => n ≠ 1)).filter (fun n => n ≠ 1) = ns.filter (fun n => n ≠ 1) := by
      intro ns
      rw [List.filter_filter]
      apply List.filter_congr
      intro n hn
      simp
    show s.squeeze.data.squeeze = s.squeeze.data
    rw [show s.squeeze.data = ⟨s.data.shape.filter (fun n => n ≠ 1), s.data.flat⟩ from rfl]
    simp only [NDArray.squeeze, hidem]

/-- Witness: squeezing the 1×2 demo slice keeps only `z` and records
`("t", 7)` as a fixed coordinate; squeezing again changes nothing. -/
theorem slice_squeeze_spec_witness :
    squeezeDemoSlice.data.shape.length = squeezeDemoSlice.dimensions.length ∧
    squeezeDemoSlice.coords.length = squeezeDemoSlice.dimensions.length ∧
    (∀ n ∈ squeezeDemoSlice.data.shape, 1 ≤ n) ∧
    squeezeDemoSlice.squeeze.dimensions = dimsNotOne squeezeDemoSlice ∧
    dimsNotOne squeezeDemoSlice = ["z"] ∧
    squeezeDemoSlice.squeeze.fixedcoords = fixedPairs squeezeDemoSlice ∧
    fixedPairs squeezeDemoSlice = [("t", 7)] ∧
    squeezeDemoSlice.squeeze.squeeze.dimensions = squeezeDemoSlice.squeeze.dimensions ∧
    squeezeDemoSlice.squeeze.squeeze.data = squeezeDemoSlice.squeeze.data := by
  have h := slice_squeeze_spec squeezeDemoSlice (by decide) (by decide) (by decide) (by decide)
  exact ⟨by decide, by decide, by decide, h.1, by decide, h.2.1, by decide,
    h.2.2.2.2.1, h.2.2.2.2.2⟩

/-- C5 counterexample: on a valid slice whose dimension `a` has length
zero, `squeeze()` drops `a` from the dimension list even though its
data length (0) is not 1, so the result's dimensions `["b"]` differ from
the claimed `["a", "b"]`; and squeezing the already-squeezed slice drops
`b` as well (the surviving zero-length data axis now faces `b`'s name),
so squeeze is not idempotent there either. -/
theorem slice_squeeze_counterexample :
    emptyDimSlice.squeeze.dimensions = ["b"] ∧
    dimsNotOne emptyDimSlice = ["a", "b"] ∧
    emptyDimSlice.squeeze.dimensions ≠ dimsNotOne emptyDimSlice ∧
    emptyDimSlice.squeeze.squeeze.dimensions = ([] : List String) ∧
    emptyDimSlice.squeeze.squeeze.dimensions ≠ emptyDimSlice.squeeze.dimensions := by
  refine ⟨by decide, by decide, by decide, by decide, by decide⟩

end XmlPlot
